import Mathlib

/-!
Verification of the OpsOrch GitHub adapter (Go) against its natural-language
specification, via a shallow embedding of the adapter's pure logic in Lean.

Go strings are modelled as Lean `String`; `strings.ToLower` and
`strings.EqualFold` are modelled on the ASCII range (`Char.toLower`), which is
exact for every vocabulary word the adapter compares against.  Go `nil` /
present-or-absent values become `Option`, Go `error` returns become
`Except String`, Go maps with `any` values become association lists over an
explicit value sum, and the GitHub HTTP client becomes an oracle function
passed to each operation.
-/

set_option linter.dupNamespace false
set_option linter.unnecessarySeqFocus false

namespace OpsOrchGitHub

/-- Model of Go `strings.ToLower` (ASCII range). -/
def lowerStr (s : String) : String :=
  ⟨s.data.map Char.toLower⟩

/-- Substring test over character lists: true iff `pat` occurs contiguously
inside `text` (true for the empty pattern), matching Go `strings.Contains`. -/
def listContains (text pat : List Char) : Bool :=
  match text with
  | [] => pat.isEmpty
  | _ :: t => pat.isPrefixOf text || listContains t pat

/-- Model of Go `strings.Contains s sub`. -/
def strContains (s sub : String) : Bool :=
  listContains s.data sub.data

/-- Model of Go `strings.EqualFold` (ASCII case-insensitive equality). -/
def eqFold (a b : String) : Bool :=
  lowerStr a == lowerStr b

namespace Deployment

/-- From `deployment/provider.go` `normalizeStatus`: converts a GitHub
workflow-run (status, conclusion) pair to the canonical deployment status. -/
def normalizeStatus (status conclusion : String) : String :=
  if lowerStr status = "queued" then "queued"
  else if lowerStr status = "in_progress" then "running"
  else if lowerStr status = "completed" then
    if lowerStr conclusion = "success" then "success"
    else if lowerStr conclusion = "failure" then "failed"
    else if lowerStr conclusion = "cancelled" then "cancelled"
    else if lowerStr conclusion = "skipped" then "cancelled"
    else if lowerStr conclusion = "timed_out" then "failed"
    else if lowerStr conclusion = "action_required" then "failed"
    else "failed"
  else status

/-- From `deployment/provider.go` `extractEnvironment`: the ordered
environment pattern list. -/
def envPatterns : List String :=
  ["prod", "production", "staging", "stage", "dev", "development", "test", "testing"]

/-- From `deployment/provider.go` `extractEnvironment`: heuristic environment
classification from (workflow name, branch).  The two scan loops over
`envPatterns` are the first-match searches `List.find?`. -/
def extractEnvironment (workflowName branch : String) : String :=
  let workflowLower := lowerStr workflowName
  match envPatterns.find? (fun env => strContains workflowLower env) with
  | some env => env
  | none =>
    let branchLower := lowerStr branch
    match envPatterns.find? (fun env => strContains branchLower env) with
    | some env => env
    | none =>
      if branchLower = "main" ∨ branchLower = "master" then "production"
      else if branchLower = "develop" ∨ branchLower = "dev" then "development"
      else "development"

end Deployment

/-- A value in the untyped configuration map (`map[string]any`): either a Go
string or some non-string value. -/
inductive CfgVal where
  | str (s : String)
  | nonStr
deriving DecidableEq

/-- The untyped configuration (`map[string]any`) as an association list. -/
def CfgMap := List (String × CfgVal)

/-- Go comma-ok string assertion `cfg[k].(string)`: `some s` iff key `k` is
present with a string value. -/
def getStr (cfg : CfgMap) (k : String) : Option String :=
  match List.lookup k cfg with
  | some (CfgVal.str s) => some s
  | _ => none

/-- Effect recorded while constructing a provider: the single
`github.NewTokenClient` call.  No network request is issued by construction;
network traffic happens only through the operation oracles. -/
inductive NewEvent where
  | createClient (token : String)
deriving DecidableEq

/-- The authenticated GitHub client handle built by `github.NewTokenClient`. -/
structure Client where
  token : String
deriving DecidableEq

namespace Ticket

/-- Model of `ticket.Config` from `ticket/provider.go`. -/
structure Config where
  token : String
  owner : String
  repo : String
  defaultState : String
deriving DecidableEq

/-- Model of `ticket.Provider`: the validated config plus the client handle. -/
structure Provider where
  client : Client
  config : Config
deriving DecidableEq

/-- Model of `ticket.New` from `ticket/provider.go`, instrumented with the list of
client-construction events: validates `token`, `owner`, `repo` in that order,
stopping at the first missing-or-non-string key; `defaultState` defaults to
`"open"`; the client is created only after validation succeeds. -/
def NewT (cfg : CfgMap) : List NewEvent × Except String Provider :=
  match getStr cfg "token" with
  | none => ([], Except.error "token is required")
  | some token =>
    match getStr cfg "owner" with
    | none => ([], Except.error "owner is required")
    | some owner =>
      match getStr cfg "repo" with
      | none => ([], Except.error "repo is required")
      | some repo =>
        let defaultState :=
          match getStr cfg "defaultState" with
          | some state => state
          | none => "open"
        ([NewEvent.createClient token],
         Except.ok { client := { token := token },
                     config := { token := token, owner := owner, repo := repo,
                                 defaultState := defaultState } })

/-- Model of `ticket.New` (result only). -/
def New (cfg : CfgMap) : Except String Provider :=
  (NewT cfg).2

/-- Model of `normalizeStatus` from `ticket/provider.go`: GitHub issue state to
canonical ticket status; unrecognized states pass through unchanged. -/
def normalizeStatus (state : String) : String :=
  if lowerStr state = "open" then "open"
  else if lowerStr state = "closed" then "closed"
  else state

/-- Model of `schema.UpdateTicketInput`: pointer fields become `Option`. -/
structure UpdateTicketInput where
  title : Option String
  description : Option String
  status : Option String
  assignees : Option (List String)
deriving DecidableEq

/-- Model of `github.IssueRequest` as built by `ticket.Update`: `nil` pointer fields
are `none`. -/
structure IssueRequest where
  title : Option String
  body : Option String
  state : Option String
  assignees : Option (List String)
deriving DecidableEq

/-- The `issueRequest` construction inside `ticket.Update`
(`ticket/provider.go` lines 178-205): each field is set only when present and
non-empty; the status switch recognizes the two alias groups and sets no
state otherwise. -/
def updateIssueRequest (input : UpdateTicketInput) : IssueRequest :=
  let title :=
    match input.title with
    | some t => if t ≠ "" then some t else none
    | none => none
  let body :=
    match input.description with
    | some d => if d ≠ "" then some d else none
    | none => none
  let state :=
    match input.status with
    | some s =>
      if s ≠ "" then
        if lowerStr s = "open" ∨ lowerStr s = "new" ∨ lowerStr s = "in_progress"
        then some "open"
        else if lowerStr s = "closed" ∨ lowerStr s = "resolved" ∨ lowerStr s = "done"
        then some "closed"
        else none
      else none
    | none => none
  let assignees :=
    match input.assignees with
    | some a => if a.length > 0 then some a else none
    | none => none
  { title := title, body := body, state := state, assignees := assignees }

/-- Model of `schema.TicketQuery`: the fields `ticket.Query` reads.  the labels metadata entry
is modelled as the optional string-list it is asserted to. -/
structure TicketQuery where
  limit : Int
  statuses : List String
  scopeTeam : String
  metadataLabels : Option (List String)

/-- Model of `github.IssueListByRepoOptions` as built by `ticket.Query`. -/
structure IssueListOptions where
  perPage : Int
  state : String
  assignee : String
  labels : List String
deriving DecidableEq

/-- The options construction inside `ticket.Query` (`ticket/provider.go`
lines 71-104): per-page 100 reduced to the limit when `0 < limit < 100`; the
status loop repeatedly overwrites `state` (last recognized status wins);
assignee from the scope team; labels from metadata. -/
def queryOpts (q : TicketQuery) : IssueListOptions :=
  let perPage : Int := if 0 < q.limit ∧ q.limit < 100 then q.limit else 100
  let state :=
    q.statuses.foldl
      (fun st status =>
        match lowerStr status with
        | "open" | "new" | "in_progress" => "open"
        | "closed" | "resolved" | "done" => "closed"
        | _ => st) ""
  let assignee := if q.scopeTeam ≠ "" then q.scopeTeam else ""
  let labels :=
    match q.metadataLabels with
    | some ls => ls
    | none => []
  { perPage := perPage, state := state, assignee := assignee, labels := labels }

/-- A field value in a ticket's extension map (`map[string]any`). -/
inductive FieldVal where
  | s (v : String)
  | list (v : List String)
deriving DecidableEq

/-- A GitHub issue record as consumed by the ticket adapter.  Timestamps are
opaque integers; `pullRequestLinks` is `some ()` iff the upstream record
carries pull-request links. -/
structure Issue where
  number : Int
  title : String
  body : String
  state : String
  htmlURL : String
  createdAt : Int
  updatedAt : Int
  pullRequestLinks : Option Unit
  assignees : List String
  user : Option String
  labels : List String
  milestone : Option String
deriving DecidableEq

/-- Model of `schema.Ticket` as produced by the ticket adapter. -/
structure Ticket where
  id : String
  title : String
  description : String
  status : String
  url : String
  createdAt : Int
  updatedAt : Int
  assignees : List String
  reporter : String
  fields : List (String × FieldVal)
deriving DecidableEq

/-- Model of `convertIssueToTicket` from `ticket/provider.go`: field-by-field mapping
of a GitHub issue to a canonical ticket.  The Go conditional assignments into
zero-valued fields (`assignees`, `reporter`) are written directly. -/
def convertIssueToTicket (issue : Issue) : Ticket :=
  { id := toString issue.number,
    title := issue.title,
    description := issue.body,
    status := normalizeStatus issue.state,
    url := issue.htmlURL,
    createdAt := issue.createdAt,
    updatedAt := issue.updatedAt,
    assignees := issue.assignees,
    reporter :=
      match issue.user with
      | some login => login
      | none => "",
    fields :=
      [("url", FieldVal.s issue.htmlURL)]
      ++ (if issue.labels.length > 0 then [("labels", FieldVal.list issue.labels)] else [])
      ++ (match issue.milestone with
          | some m => [("milestone", FieldVal.s m)]
          | none => []) }

/-- The result loop of `ticket.Query` (`ticket/provider.go` lines 111-120):
issues carrying pull-request links are skipped, the rest are converted. -/
def convertIssues : List Issue → List Ticket
  | [] => []
  | issue :: rest =>
    if issue.pullRequestLinks.isSome then convertIssues rest
    else convertIssueToTicket issue :: convertIssues rest

/-- Model of `ticket.Query` end to end, with the GitHub list endpoint as an oracle
from request options to the returned first page. -/
def Query (server : IssueListOptions → List Issue) (q : TicketQuery) : List Ticket :=
  convertIssues (server (queryOpts q))

end Ticket

namespace Deployment

/-- Model of `deployment.Config` from `deployment/provider.go`. -/
structure Config where
  token : String
  owner : String
  repo : String
deriving DecidableEq

/-- Model of `deployment.Provider`: the validated config plus the client handle. -/
structure Provider where
  client : Client
  config : Config
deriving DecidableEq

/-- Model of `deployment.New` from `deployment/provider.go`, instrumented with the
client-construction events: validates `token`, `owner`, `repo` in that order,
stopping at the first missing-or-non-string key. -/
def NewT (cfg : CfgMap) : List NewEvent × Except String Provider :=
  match getStr cfg "token" with
  | none => ([], Except.error "token is required")
  | some token =>
    match getStr cfg "owner" with
    | none => ([], Except.error "owner is required")
    | some owner =>
      match getStr cfg "repo" with
      | none => ([], Except.error "repo is required")
      | some repo =>
        ([NewEvent.createClient token],
         Except.ok { client := { token := token },
                     config := { token := token, owner := owner, repo := repo } })

/-- Model of `deployment.New` (result only). -/
def New (cfg : CfgMap) : Except String Provider :=
  (NewT cfg).2

/-- Model of `schema.DeploymentQuery`: the fields `deployment.Query` reads. -/
structure DeploymentQuery where
  limit : Int
  statuses : List String
  scopeService : String
  scopeEnvironment : String
  metadataBranch : Option String
  metadataActor : Option String
  metadataEvent : Option String

/-- Model of `github.ListWorkflowRunsOptions` as built by `deployment.Query`. -/
structure WorkflowRunOptions where
  perPage : Int
  status : String
  branch : String
  actor : String
  event : String
deriving DecidableEq

/-- The options construction inside `deployment.Query` (`deployment/provider.go`
lines 63-107): per-page 100 reduced to the limit when `0 < limit < 100`; the
status loop maps canonical statuses to upstream run statuses, later matches
overwriting earlier ones; branch/actor/event from metadata. -/
def queryOpts (q : DeploymentQuery) : WorkflowRunOptions :=
  let perPage : Int := if 0 < q.limit ∧ q.limit < 100 then q.limit else 100
  let status :=
    q.statuses.foldl
      (fun st status =>
        match lowerStr status with
        | "queued" => "queued"
        | "running" | "in_progress" => "in_progress"
        | "success" | "completed" => "completed"
        | "failed" => "completed"
        | "cancelled" => "completed"
        | _ => st) ""
  let branch :=
    match q.metadataBranch with
    | some b => b
    | none => ""
  let actor :=
    match q.metadataActor with
    | some a => a
    | none => ""
  let event :=
    match q.metadataEvent with
    | some e => e
    | none => ""
  { perPage := perPage, status := status, branch := branch, actor := actor,
    event := event }

/-- A GitHub workflow-run record as consumed by the deployment adapter.
Timestamps are `none` when the upstream value is the zero time. -/
structure WorkflowRun where
  id : Int
  name : String
  status : String
  conclusion : String
  htmlURL : String
  headBranch : String
  headSHA : String
  createdAt : Option Int
  updatedAt : Option Int
  actorLogin : Option String
  headCommitMessage : Option String
deriving DecidableEq

/-- Model of `schema.Deployment` as produced by the deployment adapter. -/
structure Deployment where
  id : String
  status : String
  url : String
  service : String
  environment : String
  version : String
  startedAt : Option Int
  finishedAt : Option Int
  actorLogin : Option String
  fields : List (String × String)
deriving DecidableEq

/-- Model of `convertWorkflowRunToDeployment` from `deployment/provider.go`: field
mapping of a workflow run to a canonical deployment; the version is the first
7 characters of the head SHA when it is at least that long. -/
def convertWorkflowRunToDeployment (cfg : Config) (run : WorkflowRun) : Deployment :=
  { id := toString run.id,
    status := normalizeStatus run.status run.conclusion,
    url := run.htmlURL,
    service := cfg.repo,
    environment := extractEnvironment run.name run.headBranch,
    version :=
      if run.headSHA ≠ "" ∧ run.headSHA.length ≥ 7
      then ⟨run.headSHA.data.take 7⟩ else "",
    startedAt := run.createdAt,
    finishedAt := run.updatedAt,
    actorLogin := run.actorLogin,
    fields :=
      [("workflow_name", run.name), ("branch", run.headBranch),
       ("commit", run.headSHA)]
      ++ (match run.headCommitMessage with
          | some msg => [("commit_message", msg)]
          | none => []) }

/-- The result loop of `deployment.Query` (`deployment/provider.go` lines
115-144): client-side refinement by canonical status (case-insensitive,
only when a status filter was given), then by scope service and scope
environment. -/
def filterRuns (cfg : Config) (statuses : List String)
    (scopeService scopeEnvironment : String) : List WorkflowRun → List Deployment
  | [] => []
  | run :: rest =>
    let keepStatus :=
      if statuses.length > 0 then
        statuses.any (fun status => eqFold (normalizeStatus run.status run.conclusion) status)
      else true
    if !keepStatus then filterRuns cfg statuses scopeService scopeEnvironment rest
    else
      let d := convertWorkflowRunToDeployment cfg run
      if scopeService ≠ "" ∧ d.service ≠ scopeService then
        filterRuns cfg statuses scopeService scopeEnvironment rest
      else if scopeEnvironment ≠ "" ∧ d.environment ≠ scopeEnvironment then
        filterRuns cfg statuses scopeService scopeEnvironment rest
      else d :: filterRuns cfg statuses scopeService scopeEnvironment rest

/-- Model of `deployment.Query` end to end, with the GitHub list endpoint as an oracle
from request options to the returned first page. -/
def Query (server : WorkflowRunOptions → List WorkflowRun) (cfg : Config)
    (q : DeploymentQuery) : List Deployment :=
  filterRuns cfg q.statuses q.scopeService q.scopeEnvironment (server (queryOpts q))

end Deployment

namespace Team

/-- Model of `team.Config` from `team/provider.go`. -/
structure Config where
  token : String
  organization : String
deriving DecidableEq

/-- Model of `team.Provider`: the validated config plus the client handle. -/
structure Provider where
  client : Client
  config : Config
deriving DecidableEq

/-- Model of `team.New` from `team/provider.go`, instrumented with the
client-construction events: validates `token` then `organization`, stopping
at the first missing-or-non-string key. -/
def NewT (cfg : CfgMap) : List NewEvent × Except String Provider :=
  match getStr cfg "token" with
  | none => ([], Except.error "token is required")
  | some token =>
    match getStr cfg "organization" with
    | none => ([], Except.error "organization is required")
    | some org =>
      ([NewEvent.createClient token],
       Except.ok { client := { token := token },
                   config := { token := token, organization := org } })

/-- Model of `team.New` (result only). -/
def New (cfg : CfgMap) : Except String Provider :=
  (NewT cfg).2

/-- Model of `normalizeRole` from `team/provider.go`: GitHub team role to canonical
role; the default branch also yields `"member"`. -/
def normalizeRole (role : String) : String :=
  if lowerStr role = "maintainer" then "owner"
  else if lowerStr role = "member" then "member"
  else "member"

/-- A value in a member's metadata map (`map[string]any`). -/
inductive MetaVal where
  | s (v : String)
  | i (v : Int)
  | b (v : Bool)
deriving DecidableEq

/-- A basic team-member record from the team membership listing. -/
structure BasicMember where
  login : String
  githubId : Int
  avatarURL : String
  htmlURL : String
  siteAdmin : Bool
  userType : String
deriving DecidableEq

/-- A detailed user record from the per-member user lookup. -/
structure DetailedUser where
  name : String
  email : String
  company : String
  location : String
  bio : String
  blog : String
  twitter : String
  publicRepos : Int
  followers : Int
  following : Int
deriving DecidableEq

/-- Model of `schema.TeamMember` as produced by `team.Members`. -/
structure TeamMember where
  id : String
  name : String
  email : String
  handle : String
  role : String
  metadata : List (String × MetaVal)
deriving DecidableEq

/-- The degraded entry built when the detailed-user lookup fails
(`team/provider.go` lines 154-167): login-derived id/name/handle, role
`"member"`, and only the basic metadata. -/
def basicEntry (m : BasicMember) : TeamMember :=
  { id := m.login,
    name := m.login,
    email := "",
    handle := m.login,
    role := "member",
    metadata :=
      [("github_id", MetaVal.i m.githubId),
       ("avatar_url", MetaVal.s m.avatarURL),
       ("html_url", MetaVal.s m.htmlURL),
       ("site_admin", MetaVal.b m.siteAdmin),
       ("type", MetaVal.s m.userType)] }

/-- The full entry built when the detailed-user lookup succeeds
(`team/provider.go` lines 171-199); `role` is the membership role, defaulted
to `"member"` when the membership lookup fails, then normalized. -/
def fullEntry (m : BasicMember) (user : DetailedUser) (role : String) : TeamMember :=
  { id := m.login,
    name := user.name,
    email := user.email,
    handle := m.login,
    role := normalizeRole role,
    metadata :=
      [("github_id", MetaVal.i m.githubId),
       ("avatar_url", MetaVal.s m.avatarURL),
       ("html_url", MetaVal.s m.htmlURL),
       ("site_admin", MetaVal.b m.siteAdmin),
       ("type", MetaVal.s m.userType),
       ("company", MetaVal.s user.company),
       ("location", MetaVal.s user.location),
       ("bio", MetaVal.s user.bio),
       ("blog", MetaVal.s user.blog),
       ("twitter", MetaVal.s user.twitter),
       ("public_repos", MetaVal.i user.publicRepos),
       ("followers", MetaVal.i user.followers),
       ("following", MetaVal.i user.following)] }

/-- The per-member loop of `team.Members` (`team/provider.go` lines 150-200),
with the user and membership-role lookups as oracles.  A failed user lookup
degrades to the basic entry; a failed membership lookup defaults the role to
`"member"`; neither failure aborts the loop.  (The slug resolution,
organization fetch and member-list fetch preceding this loop can each fail
the whole call; they happen before any per-member lookup.) -/
def membersLoop (userGet : String → Except String DetailedUser)
    (membershipGet : String → Except String String) :
    List BasicMember → List TeamMember
  | [] => []
  | m :: rest =>
    match userGet m.login with
    | Except.error _ =>
      basicEntry m :: membersLoop userGet membershipGet rest
    | Except.ok user =>
      let role :=
        match membershipGet m.login with
        | Except.ok r => r
        | Except.error _ => "member"
      fullEntry m user role :: membersLoop userGet membershipGet rest

end Team

/-!
## RPC bridges

One item read from the input stream: end-of-stream, a decode failure, or a
decoded request.  JSON payload decoding is modelled by a payload sum per
domain, with `malformed` standing for any value the expected shape fails to
unmarshal from.  Adapter operations take the network through an oracle from
operation to serialized result; each dispatch also reports the list of
adapter operations it invoked.
-/

/-- An item read from the bridge's input stream. -/
inductive StreamItem (R : Type) where
  | eofItem
  | decodeErr (msg : String)
  | req (r : R)

/-- One line of output from a ticket/deployment bridge
(`rpcResponse`): a result or an error string. -/
inductive RpcOut where
  | ok (result : String)
  | err (msg : String)
deriving DecidableEq

/-- Convert an operation outcome to a response line. -/
def respOf : Except String String → RpcOut
  | Except.ok r => RpcOut.ok r
  | Except.error e => RpcOut.err e

/-- The result of one bridge loop iteration: the provider state after the
iteration, the response written (if any), whether the loop continues, and
the adapter operations invoked. -/
structure StepResult (P O : Type) where
  state : Option P
  output : Option RpcOut
  continues : Bool
  ops : List O

namespace TicketBridge

open Ticket

/-- The decoded `payload` of a ticket RPC request. -/
inductive Payload where
  | query (q : TicketQuery)
  | getId (id : String)
  | create (title : String) (description : String)
  | update (id : String) (input : UpdateTicketInput)
  | malformed

/-- Model of `rpcRequest` from `cmd/ticketplugin/main.go`. -/
structure Request where
  method : String
  config : CfgMap
  payload : Payload

/-- An adapter operation invoked by the ticket bridge. -/
inductive Op where
  | query (q : TicketQuery)
  | get (id : String)
  | create (title : String) (description : String)
  | update (id : String) (input : UpdateTicketInput)

/-- Model of `json.Unmarshal` of the payload into `schema.TicketQuery`. -/
def asQuery : Payload → Option TicketQuery
  | Payload.query q => some q
  | _ => none

/-- Model of `json.Unmarshal` of the payload into the id-only shape. -/
def asGetId : Payload → Option String
  | Payload.getId id => some id
  | _ => none

/-- Model of `json.Unmarshal` of the payload into `schema.CreateTicketInput`. -/
def asCreate : Payload → Option (String × String)
  | Payload.create t d => some (t, d)
  | _ => none

/-- Model of `json.Unmarshal` of the payload into the id-and-input shape. -/
def asUpdate : Payload → Option (String × UpdateTicketInput)
  | Payload.update id input => some (id, input)
  | _ => none

/-- The method-dispatch switch of `cmd/ticketplugin/main.go` (lines 60-120):
the four `ticket.*` methods decode their payload and invoke the matching
adapter operation; any other method writes an unknown-method error without
invoking any operation. -/
def dispatch (handle : Provider → Op → Except String String) (p : Provider)
    (r : Request) : RpcOut × List Op :=
  match r.method with
  | "ticket.query" =>
    match asQuery r.payload with
    | none => (RpcOut.err "unmarshal error", [])
    | some q => (respOf (handle p (Op.query q)), [Op.query q])
  | "ticket.get" =>
    match asGetId r.payload with
    | none => (RpcOut.err "unmarshal error", [])
    | some id => (respOf (handle p (Op.get id)), [Op.get id])
  | "ticket.create" =>
    match asCreate r.payload with
    | none => (RpcOut.err "unmarshal error", [])
    | some td => (respOf (handle p (Op.create td.1 td.2)), [Op.create td.1 td.2])
  | "ticket.update" =>
    match asUpdate r.payload with
    | none => (RpcOut.err "unmarshal error", [])
    | some iu => (respOf (handle p (Op.update iu.1 iu.2)), [Op.update iu.1 iu.2])
  | _ => (RpcOut.err ("unknown method: " ++ r.method), [])

/-- One iteration of the `cmd/ticketplugin/main.go` loop (lines 33-121):
end-of-stream returns cleanly; any other decode failure writes the error and
terminates; with no provider yet, the request's config is validated first —
on failure the error is written, the state stays uninitialized and the loop
continues; otherwise the request is dispatched with the (new or existing)
provider, which is never replaced once set. -/
def step (handle : Provider → Op → Except String String)
    (st : Option Provider) (item : StreamItem Request) : StepResult Provider Op :=
  match item with
  | StreamItem.eofItem =>
    { state := st, output := none, continues := false, ops := [] }
  | StreamItem.decodeErr e =>
    { state := st, output := some (RpcOut.err e), continues := false, ops := [] }
  | StreamItem.req r =>
    match st with
    | none =>
      match New r.config with
      | Except.error e =>
        { state := none, output := some (RpcOut.err e), continues := true, ops := [] }
      | Except.ok p =>
        let (out, ops) := dispatch handle p r
        { state := some p, output := some out, continues := true, ops := ops }
    | some p =>
      let (out, ops) := dispatch handle p r
      { state := some p, output := some out, continues := true, ops := ops }

/-- The bridge loop over a stream prefix: the provider state left behind. -/
def run (handle : Provider → Op → Except String String) :
    Option Provider → List (StreamItem Request) → Option Provider
  | st, [] => st
  | st, item :: rest =>
    let res := step handle st item
    if res.continues then run handle res.state rest else res.state

end TicketBridge

namespace DeploymentBridge

open Deployment

/-- The decoded `payload` of a deployment RPC request. -/
inductive Payload where
  | query (q : DeploymentQuery)
  | getId (id : String)
  | malformed

/-- Model of `rpcRequest` from `cmd/deploymentplugin/main.go`. -/
structure Request where
  method : String
  config : CfgMap
  payload : Payload

/-- An adapter operation invoked by the deployment bridge. -/
inductive Op where
  | query (q : DeploymentQuery)
  | get (id : String)

/-- Model of `json.Unmarshal` of the payload into `schema.DeploymentQuery`. -/
def asQuery : Payload → Option DeploymentQuery
  | Payload.query q => some q
  | _ => none

/-- Model of `json.Unmarshal` of the payload into the id-only shape. -/
def asGetId : Payload → Option String
  | Payload.getId id => some id
  | _ => none

/-- The method-dispatch switch of `cmd/deploymentplugin/main.go`
(lines 60-91). -/
def dispatch (handle : Provider → Op → Except String String) (p : Provider)
    (r : Request) : RpcOut × List Op :=
  match r.method with
  | "deployment.query" =>
    match asQuery r.payload with
    | none => (RpcOut.err "unmarshal error", [])
    | some q => (respOf (handle p (Op.query q)), [Op.query q])
  | "deployment.get" =>
    match asGetId r.payload with
    | none => (RpcOut.err "unmarshal error", [])
    | some id => (respOf (handle p (Op.get id)), [Op.get id])
  | _ => (RpcOut.err ("unknown method: " ++ r.method), [])

/-- One iteration of the `cmd/deploymentplugin/main.go` loop (lines 33-92),
identical in shape to the ticket bridge. -/
def step (handle : Provider → Op → Except String String)
    (st : Option Provider) (item : StreamItem Request) : StepResult Provider Op :=
  match item with
  | StreamItem.eofItem =>
    { state := st, output := none, continues := false, ops := [] }
  | StreamItem.decodeErr e =>
    { state := st, output := some (RpcOut.err e), continues := false, ops := [] }
  | StreamItem.req r =>
    match st with
    | none =>
      match New r.config with
      | Except.error e =>
        { state := none, output := some (RpcOut.err e), continues := true, ops := [] }
      | Except.ok p =>
        let (out, ops) := dispatch handle p r
        { state := some p, output := some out, continues := true, ops := ops }
    | some p =>
      let (out, ops) := dispatch handle p r
      { state := some p, output := some out, continues := true, ops := ops }

/-- The bridge loop over a stream prefix: the provider state left behind. -/
def run (handle : Provider → Op → Except String String) :
    Option Provider → List (StreamItem Request) → Option Provider
  | st, [] => st
  | st, item :: rest =>
    let res := step handle st item
    if res.continues then run handle res.state rest else res.state

end DeploymentBridge

namespace TeamBridge

/-- A team query as read by the team bridge. -/
structure TeamQuery where
  name : String
  tags : List (String × String)

/-- The decoded `params` of a team RPC request. -/
inductive Params where
  | query (q : TeamQuery)
  | getId (id : String)
  | membersId (teamID : String)
  | malformed

/-- Model of `PluginRequest` from `cmd/teamplugin/main.go`. -/
structure Request where
  method : String
  params : Params

/-- Model of `PluginResponse` from `cmd/teamplugin/main.go`: a serialized result or a
coded error. -/
inductive Response where
  | result (r : String)
  | err (code : String) (message : String)
deriving DecidableEq

/-- An adapter operation invoked by the team bridge. -/
inductive Op where
  | query (q : TeamQuery)
  | get (id : String)
  | members (teamID : String)

/-- Model of `json.Unmarshal` of the params into `schema.TeamQuery`. -/
def asQuery : Params → Option TeamQuery
  | Params.query q => some q
  | _ => none

/-- Model of `json.Unmarshal` of the params into the id-only shape. -/
def asGetId : Params → Option String
  | Params.getId id => some id
  | _ => none

/-- Model of `json.Unmarshal` of the params into the teamID-only shape. -/
def asMembersId : Params → Option String
  | Params.membersId id => some id
  | _ => none

/-- Model of `handleRequest` from `cmd/teamplugin/main.go` (lines 72-160): the three
`team.*` methods decode their params and invoke the matching adapter
operation, mapping failures to coded errors; any other method returns a
`method_not_found` error without invoking any operation. -/
def handleRequest (handle : Op → Except String String) (r : Request) :
    Response × List Op :=
  match r.method with
  | "team.query" =>
    match asQuery r.params with
    | none => (Response.err "bad_request" "Invalid query parameters", [])
    | some q =>
      match handle (Op.query q) with
      | Except.error e => (Response.err "provider_error" e, [Op.query q])
      | Except.ok res => (Response.result res, [Op.query q])
  | "team.get" =>
    match asGetId r.params with
    | none => (Response.err "bad_request" "Invalid parameters", [])
    | some id =>
      match handle (Op.get id) with
      | Except.error e => (Response.err "provider_error" e, [Op.get id])
      | Except.ok res => (Response.result res, [Op.get id])
  | "team.members" =>
    match asMembersId r.params with
    | none => (Response.err "bad_request" "Invalid parameters", [])
    | some id =>
      match handle (Op.members id) with
      | Except.error e => (Response.err "provider_error" e, [Op.members id])
      | Except.ok res => (Response.result res, [Op.members id])
  | _ =>
    (Response.err "method_not_found" ("Unknown method: " ++ r.method), [])

end TeamBridge

/-!
## Helper lemmas
-/

/-- The function `List.find?` returns the element at the first index satisfying the
predicate. -/
theorem findAtFirstIndex {α : Type} (p : α → Bool) :
    ∀ (l : List α) (i : Nat) (h : i < l.length),
      p (l.get ⟨i, h⟩) = true →
      (∀ (j : Nat) (hj : j < l.length), j < i → p (l.get ⟨j, hj⟩) = false) →
      l.find? p = some (l.get ⟨i, h⟩) := by
  intro l
  induction l with
  | nil => intro i h; exact absurd h (by simp)
  | cons a t ih =>
    intro i h hp hprev
    cases i with
    | zero =>
      simp only [List.get] at hp
      simp [List.find?, hp]
    | succ n =>
      have ha : p a = false := hprev 0 (by simp) (Nat.succ_pos n)
      have hn : n < t.length := by simpa using h
      have hrec := ih n hn hp (fun j hj hlt =>
        hprev (j + 1) (by simpa using hj) (Nat.succ_lt_succ hlt))
      simp [List.find?, ha, hrec]

/-- The function `List.find?` returns `none` when no element satisfies the predicate. -/
theorem findNoneOfAll {α : Type} (p : α → Bool) :
    ∀ l : List α, (∀ a ∈ l, p a = false) → l.find? p = none := by
  intro l
  induction l with
  | nil => intro _; rfl
  | cons a t ih =>
    intro hall
    have ha : p a = false := hall a (by simp)
    simp [List.find?, ha, ih (fun b hb => hall b (by simp [hb]))]

/-!
## Claims
-/

/-- C1: the deployment status normalizer matches the 10-row
(status, conclusion) table exactly: queued maps to queued, in_progress to
running, completed maps by conclusion (success to success; failure,
timed_out, action_required and anything unrecognized to failed; cancelled
and skipped to cancelled), and any other status passes through as the raw
status.  Matching is case-insensitive on both inputs and the canonical
outputs are the exact lowercase strings. -/
theorem c1_deployment_status_table (status conclusion : String) :
    (lowerStr status = "queued" →
      Deployment.normalizeStatus status conclusion = "queued") ∧
    (lowerStr status = "in_progress" →
      Deployment.normalizeStatus status conclusion = "running") ∧
    (lowerStr status = "completed" →
      ((lowerStr conclusion = "success" →
         Deployment.normalizeStatus status conclusion = "success") ∧
       (lowerStr conclusion = "failure" →
         Deployment.normalizeStatus status conclusion = "failed") ∧
       (lowerStr conclusion = "cancelled" →
         Deployment.normalizeStatus status conclusion = "cancelled") ∧
       (lowerStr conclusion = "skipped" →
         Deployment.normalizeStatus status conclusion = "cancelled") ∧
       (lowerStr conclusion = "timed_out" →
         Deployment.normalizeStatus status conclusion = "failed") ∧
       (lowerStr conclusion = "action_required" →
         Deployment.normalizeStatus status conclusion = "failed") ∧
       (lowerStr conclusion ∉
          (["success", "failure", "cancelled", "skipped", "timed_out",
            "action_required"] : List String) →
         Deployment.normalizeStatus status conclusion = "failed"))) ∧
    (lowerStr status ∉ (["queued", "in_progress", "completed"] : List String) →
      Deployment.normalizeStatus status conclusion = status) := by
  refine ⟨fun h => ?_, fun h => ?_, fun h => ?_, fun h => ?_⟩
  · simp [Deployment.normalizeStatus, h]
  · simp [Deployment.normalizeStatus, h]
  · refine ⟨fun hc => ?_, fun hc => ?_, fun hc => ?_, fun hc => ?_,
      fun hc => ?_, fun hc => ?_, fun hc => ?_⟩
    case refine_7 =>
      simp only [List.mem_cons, List.mem_singleton, not_or] at hc
      obtain ⟨h1, h2, h3, h4, h5, h6⟩ := hc
      simp [Deployment.normalizeStatus, h, h1, h2, h3, h4, h5, h6]
    all_goals simp [Deployment.normalizeStatus, h, hc]
  · simp only [List.mem_cons, List.mem_singleton, not_or] at h
    obtain ⟨h1, h2, h3, -⟩ := h
    simp [Deployment.normalizeStatus, h1, h2, h3]

/-- Witness for C1 at concrete inputs: a mixed-case queued row, the
completed/skipped row, and an unrecognized status passing through. -/
theorem c1_deployment_status_table_witness :
    Deployment.normalizeStatus "Queued" "" = "queued" ∧
    Deployment.normalizeStatus "completed" "Skipped" = "cancelled" ∧
    Deployment.normalizeStatus "waiting" "" = "waiting" :=
  ⟨(c1_deployment_status_table "Queued" "").1 (by decide),
   (((c1_deployment_status_table "completed" "Skipped").2.2.1
      (by decide)).2.2.2.1 (by decide)),
   (c1_deployment_status_table "waiting" "").2.2.2 (by decide)⟩

/-- C2: environment inference returns the first pattern of the ordered list
that is a case-insensitive substring of the name; if none, the first that is
a substring of the branch; if none, branch main or master gives production
and branch develop or dev gives development; otherwise development.  The four
literal cases of the specification hold. -/
theorem c2_extract_environment (name branch : String) :
    (∀ (i : Nat) (h : i < Deployment.envPatterns.length),
       strContains (lowerStr name) (Deployment.envPatterns.get ⟨i, h⟩) = true →
       (∀ (j : Nat) (hj : j < Deployment.envPatterns.length), j < i →
          strContains (lowerStr name) (Deployment.envPatterns.get ⟨j, hj⟩) = false) →
       Deployment.extractEnvironment name branch = Deployment.envPatterns.get ⟨i, h⟩) ∧
    ((∀ p ∈ Deployment.envPatterns, strContains (lowerStr name) p = false) →
      (∀ (i : Nat) (h : i < Deployment.envPatterns.length),
        strContains (lowerStr branch) (Deployment.envPatterns.get ⟨i, h⟩) = true →
        (∀ (j : Nat) (hj : j < Deployment.envPatterns.length), j < i →
           strContains (lowerStr branch) (Deployment.envPatterns.get ⟨j, hj⟩) = false) →
        Deployment.extractEnvironment name branch = Deployment.envPatterns.get ⟨i, h⟩)) ∧
    ((∀ p ∈ Deployment.envPatterns, strContains (lowerStr name) p = false) →
     (∀ p ∈ Deployment.envPatterns, strContains (lowerStr branch) p = false) →
      ((lowerStr branch = "main" ∨ lowerStr branch = "master" →
         Deployment.extractEnvironment name branch = "production") ∧
       (lowerStr branch = "develop" ∨ lowerStr branch = "dev" →
         Deployment.extractEnvironment name branch = "development") ∧
       (lowerStr branch ∉ (["main", "master", "develop", "dev"] : List String) →
         Deployment.extractEnvironment name branch = "development"))) ∧
    (Deployment.extractEnvironment "Deploy to Production" "main" = "prod" ∧
     Deployment.extractEnvironment "Build" "main" = "production" ∧
     Deployment.extractEnvironment "Build" "develop" = "dev" ∧
     Deployment.extractEnvironment "Build" "feature/xyz" = "development") := by
  refine ⟨fun i h hp hprev => ?_, fun hname i h hp hprev => ?_,
    fun hname hbranch => ⟨fun h => ?_, fun h => ?_, fun h => ?_⟩,
    by decide, by decide, by decide, by decide⟩
  · have hfind := findAtFirstIndex _ Deployment.envPatterns i h hp hprev
    simp [Deployment.extractEnvironment, hfind]
  · have hnone := findNoneOfAll (fun env => strContains (lowerStr name) env)
      Deployment.envPatterns hname
    have hfind := findAtFirstIndex _ Deployment.envPatterns i h hp hprev
    simp [Deployment.extractEnvironment, hnone, hfind]
  · have hn := findNoneOfAll (fun env => strContains (lowerStr name) env)
      Deployment.envPatterns hname
    have hb := findNoneOfAll (fun env => strContains (lowerStr branch) env)
      Deployment.envPatterns hbranch
    rcases h with h | h <;> simp only [h] at hb <;>
      simp [Deployment.extractEnvironment, hn, hb, h]
  · have hn := findNoneOfAll (fun env => strContains (lowerStr name) env)
      Deployment.envPatterns hname
    have hb := findNoneOfAll (fun env => strContains (lowerStr branch) env)
      Deployment.envPatterns hbranch
    rcases h with h | h <;> simp only [h] at hb <;>
      simp [Deployment.extractEnvironment, hn, hb, h]
  · have hn := findNoneOfAll (fun env => strContains (lowerStr name) env)
      Deployment.envPatterns hname
    have hb := findNoneOfAll (fun env => strContains (lowerStr branch) env)
      Deployment.envPatterns hbranch
    simp only [List.mem_cons, List.mem_singleton, not_or] at h
    obtain ⟨h1, h2, h3, h4⟩ := h
    simp [Deployment.extractEnvironment, hn, hb, h1, h2, h3, h4]

/-- Witness for C2: the first-match scan fires at index 2 for a staging
workflow name, and the fallback cases fire on a branch matching no pattern. -/
theorem c2_extract_environment_witness :
    Deployment.extractEnvironment "Staging Deploy" "x" = "staging" ∧
    Deployment.extractEnvironment "Build" "zzz" = "development" :=
  ⟨(c2_extract_environment "Staging Deploy" "x").1 2 (by decide) (by decide)
    (by decide),
   ((c2_extract_environment "Build" "zzz").2.2.1 (by decide) (by decide)).2.2
    (by decide)⟩

/-- The formalization of claim C3 as stated is false: a present, non-empty
ticket-update status outside the alias groups is NOT passed through
lower-cased into the edit request's state field.  At the concrete input
status `"Blocked"` the state field is left unset. -/
theorem c3_update_passthrough_counterexample :
    ¬ (∀ (input : Ticket.UpdateTicketInput) (s : String),
        input.status = some s → s ≠ "" →
        lowerStr s ∉ (["open", "new", "in_progress", "closed", "resolved",
          "done"] : List String) →
        (Ticket.updateIssueRequest input).state = some (lowerStr s)) := by
  intro h
  have hc := h ⟨none, none, some "Blocked", none⟩ "Blocked" rfl (by decide)
    (by decide)
  exact absurd hc (by decide)

/-- C3 (amended): for every Ticket.Update input whose status is present,
non-empty and outside the alias groups, the edit request's state field is left
unset (the unrecognized status is ignored); whereas for reads, an upstream
state that is not open or closed (case-insensitively) is passed through
preserving its original case. -/
theorem c3_update_state_amended :
    (∀ (input : Ticket.UpdateTicketInput) (s : String),
       input.status = some s → s ≠ "" →
       lowerStr s ∉ (["open", "new", "in_progress", "closed", "resolved",
         "done"] : List String) →
       (Ticket.updateIssueRequest input).state = none) ∧
    (∀ state : String, lowerStr state ≠ "open" → lowerStr state ≠ "closed" →
       Ticket.normalizeStatus state = state) := by
  constructor
  · intro input s hs hne hmem
    simp only [List.mem_cons, List.mem_singleton, not_or] at hmem
    obtain ⟨h1, h2, h3, h4, h5, h6⟩ := hmem
    simp [Ticket.updateIssueRequest, hs, hne, h1, h2, h3, h4, h5, h6]
  · intro state h1 h2
    simp [Ticket.normalizeStatus, h1, h2]

/-- Witness for amended C3: the unrecognized update status `"Blocked"` leaves
the state unset, and the unrecognized read state `"Pending"` passes through
unchanged. -/
theorem c3_update_state_amended_witness :
    (Ticket.updateIssueRequest ⟨none, none, some "Blocked", none⟩).state = none ∧
    Ticket.normalizeStatus "Pending" = "Pending" :=
  ⟨c3_update_state_amended.1 ⟨none, none, some "Blocked", none⟩ "Blocked" rfl
      (by decide) (by decide),
   c3_update_state_amended.2 "Pending" (by decide) (by decide)⟩

/-- The conversion loop of `ticket.Query` never lengthens its page. -/
theorem convertIssuesLengthLe :
    ∀ issues : List Ticket.Issue,
      (Ticket.convertIssues issues).length ≤ issues.length := by
  intro issues
  induction issues with
  | nil => simp [Ticket.convertIssues]
  | cons i rest ih =>
    by_cases h : i.pullRequestLinks.isSome
    · simp only [Ticket.convertIssues, h, if_true]
      exact Nat.le_succ_of_le ih
    · simp only [Ticket.convertIssues, h, if_false, List.length_cons]
      exact Nat.succ_le_succ ih

/-- The filter loop of `deployment.Query` never lengthens its page. -/
theorem filterRunsLengthLe (cfg : Deployment.Config) (statuses : List String)
    (scopeService scopeEnvironment : String) :
    ∀ runs : List Deployment.WorkflowRun,
      (Deployment.filterRuns cfg statuses scopeService scopeEnvironment
        runs).length ≤ runs.length := by
  intro runs
  induction runs with
  | nil => simp [Deployment.filterRuns]
  | cons run rest ih =>
    simp only [Deployment.filterRuns]
    repeat' split
    all_goals simp only [List.length_cons]
    all_goals first
      | exact Nat.le_succ_of_le ih
      | exact Nat.succ_le_succ ih

/-- The formalization of claim C5 as stated is false: the page size is also
reduced when the limit is exactly 1, which is not strictly between 1 and
100.  At limit 1 the code requests a page of size 1, not 100. -/
theorem c5_pagination_counterexample :
    ¬ (∀ q : Ticket.TicketQuery,
        (1 < q.limit ∧ q.limit < 100 →
           (Ticket.queryOpts q).perPage = q.limit) ∧
        (¬(1 < q.limit ∧ q.limit < 100) →
           (Ticket.queryOpts q).perPage = 100)) := by
  intro h
  have hc := (h ⟨1, [], "", none⟩).2 (by decide)
  exact absurd hc (by decide)

/-- C5 (amended): for every ticket or deployment Query, the upstream
per-page request size is the maximum 100, reduced to the caller's limit
exactly when the limit is strictly between 0 and 100 (that is, 1 through
99); only the first page is fetched, so when the upstream page respects the
requested size, a query with limit 5 never returns more than 5 results even
when more matching records exist upstream. -/
theorem c5_pagination_amended :
    (∀ q : Ticket.TicketQuery,
       (0 < q.limit ∧ q.limit < 100 → (Ticket.queryOpts q).perPage = q.limit) ∧
       (¬(0 < q.limit ∧ q.limit < 100) → (Ticket.queryOpts q).perPage = 100)) ∧
    (∀ q : Deployment.DeploymentQuery,
       (0 < q.limit ∧ q.limit < 100 →
          (Deployment.queryOpts q).perPage = q.limit) ∧
       (¬(0 < q.limit ∧ q.limit < 100) →
          (Deployment.queryOpts q).perPage = 100)) ∧
    (∀ (server : Ticket.IssueListOptions → List Ticket.Issue)
       (q : Ticket.TicketQuery),
       (server (Ticket.queryOpts q)).length ≤
         (Ticket.queryOpts q).perPage.toNat →
       q.limit = 5 →
       (Ticket.Query server q).length ≤ 5) ∧
    (∀ (server : Deployment.WorkflowRunOptions → List Deployment.WorkflowRun)
       (cfg : Deployment.Config) (q : Deployment.DeploymentQuery),
       (server (Deployment.queryOpts q)).length ≤
         (Deployment.queryOpts q).perPage.toNat →
       q.limit = 5 →
       (Deployment.Query server cfg q).length ≤ 5) := by
  refine ⟨fun q => ⟨fun h => ?_, fun h => ?_⟩,
    fun q => ⟨fun h => ?_, fun h => ?_⟩,
    fun server q hserver hlimit => ?_,
    fun server cfg q hserver hlimit => ?_⟩
  · simp [Ticket.queryOpts, h]
  · simp [Ticket.queryOpts, h]
  · simp [Deployment.queryOpts, h]
  · simp [Deployment.queryOpts, h]
  · have hper : (Ticket.queryOpts q).perPage = 5 := by
      simp [Ticket.queryOpts, hlimit]
    have h1 := convertIssuesLengthLe (server (Ticket.queryOpts q))
    have h2 := hserver
    rw [hper] at h2
    exact le_trans (le_trans h1 h2) (by decide)
  · have hper : (Deployment.queryOpts q).perPage = 5 := by
      simp [Deployment.queryOpts, hlimit]
    have h1 := filterRunsLengthLe cfg q.statuses q.scopeService
      q.scopeEnvironment (server (Deployment.queryOpts q))
    have h2 := hserver
    rw [hper] at h2
    exact le_trans (le_trans h1 h2) (by decide)

/-- Witness for amended C5: per-page 5 at limit 5, per-page 100 at limit 0,
and the result-count ceiling with a server returning an empty first page. -/
theorem c5_pagination_amended_witness :
    (Ticket.queryOpts ⟨5, [], "", none⟩).perPage = 5 ∧
    (Ticket.queryOpts ⟨0, [], "", none⟩).perPage = 100 ∧
    (Ticket.Query (fun _ => []) ⟨5, [], "", none⟩).length ≤ 5 :=
  ⟨(c5_pagination_amended.1 ⟨5, [], "", none⟩).1 (by decide),
   (c5_pagination_amended.1 ⟨0, [], "", none⟩).2 (by decide),
   c5_pagination_amended.2.2.1 (fun _ => []) ⟨5, [], "", none⟩
     (by simp) rfl⟩

/-- The formalization of claim C4 as stated is false: team role
normalization is not idempotent.  `normalizeRole "maintainer" = "owner"`,
but a second application sends `"owner"` to `"member"`. -/
theorem c4_normalizers_counterexample :
    ¬ ((∀ s, Ticket.normalizeStatus (Ticket.normalizeStatus s) =
          Ticket.normalizeStatus s) ∧
       (∀ s t, lowerStr s = lowerStr t →
          Ticket.normalizeStatus s = Ticket.normalizeStatus t) ∧
       (∀ s, Team.normalizeRole (Team.normalizeRole s) = Team.normalizeRole s) ∧
       (∀ s t, lowerStr s = lowerStr t →
          Team.normalizeRole s = Team.normalizeRole t)) := by
  intro h
  exact absurd (h.2.2.1 "maintainer") (by decide)

/-- C4 (amended): ticket status normalization is idempotent, and two inputs
equal up to case either normalize to the same canonical value or both pass
through unchanged (so case-insensitivity holds exactly on the recognized
open/closed inputs); team role normalization is case-insensitive but not
idempotent: maintainer normalizes to owner while owner normalizes to member,
and applying it twice yields member on every input. -/
theorem c4_normalizers_amended :
    (∀ s, Ticket.normalizeStatus (Ticket.normalizeStatus s) =
       Ticket.normalizeStatus s) ∧
    (∀ s t, lowerStr s = lowerStr t →
       (Ticket.normalizeStatus s = Ticket.normalizeStatus t ∨
        (Ticket.normalizeStatus s = s ∧ Ticket.normalizeStatus t = t))) ∧
    (∀ s t, lowerStr s = lowerStr t →
       Team.normalizeRole s = Team.normalizeRole t) ∧
    (∀ s, Team.normalizeRole (Team.normalizeRole s) = "member") ∧
    Team.normalizeRole "maintainer" = "owner" ∧
    Team.normalizeRole "owner" = "member" := by
  refine ⟨fun s => ?_, fun s t h => ?_, fun s t h => ?_, fun s => ?_,
    by decide, by decide⟩
  · by_cases h1 : lowerStr s = "open"
    · simp [Ticket.normalizeStatus, h1] <;> decide
    · by_cases h2 : lowerStr s = "closed"
      · simp [Ticket.normalizeStatus, h1, h2] <;> decide
      · simp [Ticket.normalizeStatus, h1, h2]
  · by_cases h1 : lowerStr s = "open"
    · left
      have h1' : lowerStr t = "open" := h ▸ h1
      simp [Ticket.normalizeStatus, h1, h1']
    · by_cases h2 : lowerStr s = "closed"
      · left
        have h1' : lowerStr t ≠ "open" := h ▸ h1
        have h2' : lowerStr t = "closed" := h ▸ h2
        simp [Ticket.normalizeStatus, h1, h2, h1', h2']
      · right
        have h1' : lowerStr t ≠ "open" := h ▸ h1
        have h2' : lowerStr t ≠ "closed" := h ▸ h2
        simp [Ticket.normalizeStatus, h1, h2, h1', h2']
  · by_cases h1 : lowerStr s = "maintainer"
    · have h1' : lowerStr t = "maintainer" := h ▸ h1
      simp [Team.normalizeRole, h1, h1']
    · have h1' : lowerStr t ≠ "maintainer" := h ▸ h1
      by_cases h2 : lowerStr s = "member"
      · have h2' : lowerStr t = "member" := h ▸ h2
        simp [Team.normalizeRole, h1, h2, h1', h2']
      · have h2' : lowerStr t ≠ "member" := h ▸ h2
        simp [Team.normalizeRole, h1, h2, h1', h2']
  · by_cases h1 : lowerStr s = "maintainer"
    · simp [Team.normalizeRole, h1] <;> decide
    · by_cases h2 : lowerStr s = "member"
      · simp [Team.normalizeRole, h1, h2] <;> decide
      · simp [Team.normalizeRole, h1, h2] <;> decide

/-- C6: the RPC bridge is a two-state machine starting Uninitialized: a
request received while Uninitialized attempts adapter construction from that
request's embedded configuration; on validation failure it reports the error,
stays Uninitialized, and the loop continues (so construction is retried on
the next request); on successful validation it becomes Ready; and once Ready
the same adapter instance is kept by every iteration and by any run of the
loop — it is never reconstructed or replaced.  Stated for both the ticket
and the deployment bridge. -/
theorem c6_bridge_lifecycle :
    (∀ (handle : Ticket.Provider → TicketBridge.Op → Except String String)
       (r : TicketBridge.Request) (e : String),
       Ticket.New r.config = Except.error e →
       TicketBridge.step handle none (StreamItem.req r) =
         ⟨none, some (RpcOut.err e), true, []⟩) ∧
    (∀ (handle : Ticket.Provider → TicketBridge.Op → Except String String)
       (r : TicketBridge.Request) (p : Ticket.Provider),
       Ticket.New r.config = Except.ok p →
       (TicketBridge.step handle none (StreamItem.req r)).state = some p) ∧
    (∀ (handle : Ticket.Provider → TicketBridge.Op → Except String String)
       (p : Ticket.Provider) (item : StreamItem TicketBridge.Request),
       (TicketBridge.step handle (some p) item).state = some p) ∧
    (∀ (handle : Ticket.Provider → TicketBridge.Op → Except String String)
       (p : Ticket.Provider) (items : List (StreamItem TicketBridge.Request)),
       TicketBridge.run handle (some p) items = some p) ∧
    (∀ (handle : Deployment.Provider → DeploymentBridge.Op → Except String String)
       (r : DeploymentBridge.Request) (e : String),
       Deployment.New r.config = Except.error e →
       DeploymentBridge.step handle none (StreamItem.req r) =
         ⟨none, some (RpcOut.err e), true, []⟩) ∧
    (∀ (handle : Deployment.Provider → DeploymentBridge.Op → Except String String)
       (r : DeploymentBridge.Request) (p : Deployment.Provider),
       Deployment.New r.config = Except.ok p →
       (DeploymentBridge.step handle none (StreamItem.req r)).state = some p) ∧
    (∀ (handle : Deployment.Provider → DeploymentBridge.Op → Except String String)
       (p : Deployment.Provider) (item : StreamItem DeploymentBridge.Request),
       (DeploymentBridge.step handle (some p) item).state = some p) ∧
    (∀ (handle : Deployment.Provider → DeploymentBridge.Op → Except String String)
       (p : Deployment.Provider)
       (items : List (StreamItem DeploymentBridge.Request)),
       DeploymentBridge.run handle (some p) items = some p) := by
  refine ⟨fun handle r e h => ?_, fun handle r p h => ?_,
    fun handle p item => ?_, fun handle p items => ?_,
    fun handle r e h => ?_, fun handle r p h => ?_,
    fun handle p item => ?_, fun handle p items => ?_⟩
  · simp [TicketBridge.step, h]
  · simp [TicketBridge.step, h]
  · cases item <;> simp [TicketBridge.step]
  · induction items with
    | nil => rfl
    | cons item rest ih =>
      have hst : (TicketBridge.step handle (some p) item).state = some p := by
        cases item <;> simp [TicketBridge.step]
      simp only [TicketBridge.run, hst]
      split <;> [exact ih; rfl]
  · simp [DeploymentBridge.step, h]
  · simp [DeploymentBridge.step, h]
  · cases item <;> simp [DeploymentBridge.step]
  · induction items with
    | nil => rfl
    | cons item rest ih =>
      have hst : (DeploymentBridge.step handle (some p) item).state = some p := by
        cases item <;> simp [DeploymentBridge.step]
      simp only [DeploymentBridge.run, hst]
      split <;> [exact ih; rfl]

/-- Witness for C6 at concrete inputs: an empty configuration fails
validation and leaves the ticket bridge Uninitialized with the error
reported and the loop continuing; a valid configuration initializes it; and
a Ready deployment bridge keeps its provider across a run. -/
theorem c6_bridge_lifecycle_witness :
    TicketBridge.step (fun _ _ => Except.error "unused") none
      (StreamItem.req ⟨"ticket.query", [], TicketBridge.Payload.malformed⟩) =
      ⟨none, some (RpcOut.err "token is required"), true, []⟩ ∧
    (TicketBridge.step (fun _ _ => Except.error "unused") none
      (StreamItem.req ⟨"ticket.query",
        [("token", CfgVal.str "t"), ("owner", CfgVal.str "o"),
         ("repo", CfgVal.str "r")],
        TicketBridge.Payload.malformed⟩)).state =
      some ⟨⟨"t"⟩, ⟨"t", "o", "r", "open"⟩⟩ ∧
    DeploymentBridge.run (fun _ _ => Except.error "unused")
      (some ⟨⟨"t"⟩, ⟨"t", "o", "r"⟩⟩)
      [StreamItem.eofItem] = some ⟨⟨"t"⟩, ⟨"t", "o", "r"⟩⟩ :=
  ⟨c6_bridge_lifecycle.1 (fun _ _ => Except.error "unused")
     ⟨"ticket.query", [], TicketBridge.Payload.malformed⟩ "token is required"
     rfl,
   c6_bridge_lifecycle.2.1 (fun _ _ => Except.error "unused")
     ⟨"ticket.query",
      [("token", CfgVal.str "t"), ("owner", CfgVal.str "o"),
       ("repo", CfgVal.str "r")],
      TicketBridge.Payload.malformed⟩ ⟨⟨"t"⟩, ⟨"t", "o", "r", "open"⟩⟩ rfl,
   c6_bridge_lifecycle.2.2.2.2.2.2.2 (fun _ _ => Except.error "unused")
     ⟨⟨"t"⟩, ⟨"t", "o", "r"⟩⟩ [StreamItem.eofItem]⟩

/-- The formalization of claim C7 as stated is false for the
ticket/deployment bridge variant: while Uninitialized, lazy adapter
construction runs before dispatch, so an unrecognized method whose request
carries an invalid configuration is answered with the validation error, not
with the unknown-method error. -/
theorem c7_method_not_found_counterexample :
    ¬ (∀ (handle : Ticket.Provider → TicketBridge.Op → Except String String)
        (st : Option Ticket.Provider) (r : TicketBridge.Request),
        r.method ∉ (["ticket.query", "ticket.get", "ticket.create",
          "ticket.update"] : List String) →
        (TicketBridge.step handle st (StreamItem.req r)).output =
          some (RpcOut.err ("unknown method: " ++ r.method))) := by
  intro h
  have hc := h (fun _ _ => Except.error "unused") none
    ⟨"bogus", [], TicketBridge.Payload.malformed⟩ (by decide)
  exact absurd hc (by decide)

/-- C7 (amended): a request whose method is not in the bridge's fixed
dispatch table is answered with the unknown-method (MethodNotFound) error,
with no adapter operation invoked and with the loop continuing, whenever the
request reaches dispatch — that is, when the bridge is Ready, or when it is
Uninitialized and the request's configuration validates.  While
Uninitialized, a request whose configuration fails validation is instead
answered with the validation error (still with no adapter operation invoked,
and the loop still continues).  The team bridge constructs its adapter
before the loop, so its unmatched methods always yield the coded
method_not_found error with no operation invoked. -/
theorem c7_method_not_found_amended :
    (∀ (handle : Ticket.Provider → TicketBridge.Op → Except String String)
       (p : Ticket.Provider) (r : TicketBridge.Request),
       r.method ∉ (["ticket.query", "ticket.get", "ticket.create",
         "ticket.update"] : List String) →
       TicketBridge.dispatch handle p r =
         (RpcOut.err ("unknown method: " ++ r.method), []) ∧
       TicketBridge.step handle (some p) (StreamItem.req r) =
         ⟨some p, some (RpcOut.err ("unknown method: " ++ r.method)), true, []⟩) ∧
    (∀ (handle : Ticket.Provider → TicketBridge.Op → Except String String)
       (r : TicketBridge.Request) (p : Ticket.Provider),
       r.method ∉ (["ticket.query", "ticket.get", "ticket.create",
         "ticket.update"] : List String) →
       Ticket.New r.config = Except.ok p →
       TicketBridge.step handle none (StreamItem.req r) =
         ⟨some p, some (RpcOut.err ("unknown method: " ++ r.method)), true, []⟩) ∧
    (∀ (handle : Ticket.Provider → TicketBridge.Op → Except String String)
       (r : TicketBridge.Request) (e : String),
       Ticket.New r.config = Except.error e →
       TicketBridge.step handle none (StreamItem.req r) =
         ⟨none, some (RpcOut.err e), true, []⟩) ∧
    (∀ (handle : Deployment.Provider → DeploymentBridge.Op → Except String String)
       (p : Deployment.Provider) (r : DeploymentBridge.Request),
       r.method ∉ (["deployment.query", "deployment.get"] : List String) →
       DeploymentBridge.dispatch handle p r =
         (RpcOut.err ("unknown method: " ++ r.method), []) ∧
       DeploymentBridge.step handle (some p) (StreamItem.req r) =
         ⟨some p, some (RpcOut.err ("unknown method: " ++ r.method)), true, []⟩) ∧
    (∀ (handle : TeamBridge.Op → Except String String)
       (r : TeamBridge.Request),
       r.method ∉ (["team.query", "team.get", "team.members"] : List String) →
       TeamBridge.handleRequest handle r =
         (TeamBridge.Response.err "method_not_found"
           ("Unknown method: " ++ r.method), [])) := by
  have tdisp : ∀ (handle : Ticket.Provider → TicketBridge.Op → Except String String)
      (p : Ticket.Provider) (r : TicketBridge.Request),
      r.method ∉ (["ticket.query", "ticket.get", "ticket.create",
        "ticket.update"] : List String) →
      TicketBridge.dispatch handle p r =
        (RpcOut.err ("unknown method: " ++ r.method), []) := by
    intro handle p r hm
    simp only [List.mem_cons, List.mem_singleton, not_or] at hm
    obtain ⟨h1, h2, h3, h4⟩ := hm
    simp [TicketBridge.dispatch, h1, h2, h3, h4]
  have ddisp : ∀ (handle : Deployment.Provider → DeploymentBridge.Op → Except String String)
      (p : Deployment.Provider) (r : DeploymentBridge.Request),
      r.method ∉ (["deployment.query", "deployment.get"] : List String) →
      DeploymentBridge.dispatch handle p r =
        (RpcOut.err ("unknown method: " ++ r.method), []) := by
    intro handle p r hm
    simp only [List.mem_cons, List.mem_singleton, not_or] at hm
    obtain ⟨h1, h2⟩ := hm
    simp [DeploymentBridge.dispatch, h1, h2]
  refine ⟨fun handle p r hm => ⟨tdisp handle p r hm, ?_⟩,
    fun handle r p hm hnew => ?_, fun handle r e hnew => ?_,
    fun handle p r hm => ⟨ddisp handle p r hm, ?_⟩,
    fun handle r hm => ?_⟩
  · simp [TicketBridge.step, tdisp handle p r hm]
  · simp [TicketBridge.step, hnew, tdisp handle p r hm]
  · simp [TicketBridge.step, hnew]
  · simp [DeploymentBridge.step, ddisp handle p r hm]
  · simp only [List.mem_cons, List.mem_singleton, not_or] at hm
    obtain ⟨h1, h2, h3⟩ := hm
    simp [TeamBridge.handleRequest, h1, h2, h3]

/-- Witness for amended C7: a Ready ticket bridge answers an unknown method
with the unknown-method error and continues; the team bridge answers with the
coded method_not_found error; and an Uninitialized ticket bridge with an
invalid configuration answers with the validation error. -/
theorem c7_method_not_found_amended_witness :
    TicketBridge.step (fun _ _ => Except.error "unused")
      (some ⟨⟨"t"⟩, ⟨"t", "o", "r", "open"⟩⟩)
      (StreamItem.req ⟨"bogus", [], TicketBridge.Payload.malformed⟩) =
      ⟨some ⟨⟨"t"⟩, ⟨"t", "o", "r", "open"⟩⟩,
       some (RpcOut.err "unknown method: bogus"), true, []⟩ ∧
    TeamBridge.handleRequest (fun _ => Except.error "unused")
      ⟨"bogus", TeamBridge.Params.malformed⟩ =
      (TeamBridge.Response.err "method_not_found" "Unknown method: bogus", []) ∧
    TicketBridge.step (fun _ _ => Except.error "unused") none
      (StreamItem.req ⟨"bogus", [], TicketBridge.Payload.malformed⟩) =
      ⟨none, some (RpcOut.err "token is required"), true, []⟩ :=
  ⟨(c7_method_not_found_amended.1 (fun _ _ => Except.error "unused")
     ⟨⟨"t"⟩, ⟨"t", "o", "r", "open"⟩⟩
     ⟨"bogus", [], TicketBridge.Payload.malformed⟩ (by decide)).2,
   c7_method_not_found_amended.2.2.2.2 (fun _ => Except.error "unused")
     ⟨"bogus", TeamBridge.Params.malformed⟩ (by decide),
   c7_method_not_found_amended.2.2.1 (fun _ _ => Except.error "unused")
     ⟨"bogus", [], TicketBridge.Payload.malformed⟩ "token is required" rfl⟩

/-- C8: adapter construction validates required config keys in a fixed order
(token, owner, repo for ticket and deployment; token, organization for
team), stops at the first missing or wrong-typed required key, and fails
with an error naming exactly that key while performing no client
construction (first tuple component empty) — and since every network call in
this model goes through a constructed provider, no network call is attempted
on failure.  On success the ticket domain's optional defaultState key
defaults to "open" whenever it is absent or not a string. -/
theorem c8_config_validation :
    (∀ cfg : CfgMap, getStr cfg "token" = none →
       Ticket.NewT cfg = ([], Except.error "token is required") ∧
       Deployment.NewT cfg = ([], Except.error "token is required") ∧
       Team.NewT cfg = ([], Except.error "token is required")) ∧
    (∀ (cfg : CfgMap) (t : String), getStr cfg "token" = some t →
       getStr cfg "owner" = none →
       Ticket.NewT cfg = ([], Except.error "owner is required") ∧
       Deployment.NewT cfg = ([], Except.error "owner is required")) ∧
    (∀ (cfg : CfgMap) (t o : String), getStr cfg "token" = some t →
       getStr cfg "owner" = some o → getStr cfg "repo" = none →
       Ticket.NewT cfg = ([], Except.error "repo is required") ∧
       Deployment.NewT cfg = ([], Except.error "repo is required")) ∧
    (∀ (cfg : CfgMap) (t : String), getStr cfg "token" = some t →
       getStr cfg "organization" = none →
       Team.NewT cfg = ([], Except.error "organization is required")) ∧
    (∀ (cfg : CfgMap) (t o r : String), getStr cfg "token" = some t →
       getStr cfg "owner" = some o → getStr cfg "repo" = some r →
       getStr cfg "defaultState" = none →
       Ticket.NewT cfg = ([NewEvent.createClient t],
         Except.ok ⟨⟨t⟩, ⟨t, o, r, "open"⟩⟩)) ∧
    (∀ (cfg : CfgMap) (t o r d : String), getStr cfg "token" = some t →
       getStr cfg "owner" = some o → getStr cfg "repo" = some r →
       getStr cfg "defaultState" = some d →
       Ticket.NewT cfg = ([NewEvent.createClient t],
         Except.ok ⟨⟨t⟩, ⟨t, o, r, d⟩⟩)) := by
  refine ⟨fun cfg h => ?_, fun cfg t h1 h2 => ?_, fun cfg t o h1 h2 h3 => ?_,
    fun cfg t h1 h2 => ?_, fun cfg t o r h1 h2 h3 h4 => ?_,
    fun cfg t o r d h1 h2 h3 h4 => ?_⟩
  · exact ⟨by simp [Ticket.NewT, h], by simp [Deployment.NewT, h],
      by simp [Team.NewT, h]⟩
  · exact ⟨by simp [Ticket.NewT, h1, h2], by simp [Deployment.NewT, h1, h2]⟩
  · exact ⟨by simp [Ticket.NewT, h1, h2, h3],
      by simp [Deployment.NewT, h1, h2, h3]⟩
  · simp [Team.NewT, h1, h2]
  · simp [Ticket.NewT, h1, h2, h3, h4]
  · simp [Ticket.NewT, h1, h2, h3, h4]

/-- Witness for C8 at concrete configurations: an empty config fails on
token across all three domains; a config missing only repo fails naming
repo; a wrong-typed organization fails naming organization; and a complete
ticket config without defaultState validates with default "open". -/
theorem c8_config_validation_witness :
    Ticket.NewT [] = ([], Except.error "token is required") ∧
    Ticket.NewT [("token", CfgVal.str "t"), ("owner", CfgVal.str "o")] =
      ([], Except.error "repo is required") ∧
    Team.NewT [("token", CfgVal.str "t"), ("organization", CfgVal.nonStr)] =
      ([], Except.error "organization is required") ∧
    Ticket.NewT [("token", CfgVal.str "t"), ("owner", CfgVal.str "o"),
      ("repo", CfgVal.str "r")] =
      ([NewEvent.createClient "t"], Except.ok ⟨⟨"t"⟩, ⟨"t", "o", "r", "open"⟩⟩) :=
  ⟨(c8_config_validation.1 [] rfl).1,
   (c8_config_validation.2.2.1
     [("token", CfgVal.str "t"), ("owner", CfgVal.str "o")] "t" "o"
     rfl rfl rfl).1,
   c8_config_validation.2.2.2.1
     [("token", CfgVal.str "t"), ("organization", CfgVal.nonStr)] "t" rfl rfl,
   c8_config_validation.2.2.2.2.1
     [("token", CfgVal.str "t"), ("owner", CfgVal.str "o"),
      ("repo", CfgVal.str "r")] "t" "o" "r" rfl rfl rfl rfl⟩

/-- C9: the per-member loop of Team.Members degrades on partial failure
rather than erroring: it is total (one output entry per member, so one
member's failed detailed-user lookup never fails the call), and every member
whose detailed-user lookup fails is still present as the basic entry — role
defaulted to "member" and only login-derived fields and basic metadata
populated. -/
theorem c9_members_degrade
    (userGet : String → Except String Team.DetailedUser)
    (membershipGet : String → Except String String)
    (members : List Team.BasicMember) :
    (Team.membersLoop userGet membershipGet members).length = members.length ∧
    (∀ m ∈ members, (∃ e, userGet m.login = Except.error e) →
       Team.basicEntry m ∈ Team.membersLoop userGet membershipGet members ∧
       (Team.basicEntry m).role = "member") := by
  induction members with
  | nil => exact ⟨rfl, fun m hm => absurd hm (by simp)⟩
  | cons a rest ih =>
    constructor
    · cases h : userGet a.login <;>
        simp [Team.membersLoop, h, ih.1]
    · intro m hm ⟨e, he⟩
      rcases List.mem_cons.mp hm with rfl | hmem
      · rw [Team.membersLoop, he]
        exact ⟨List.mem_cons_self _ _, rfl⟩
      · have hrec := ih.2 m hmem ⟨e, he⟩
        refine ⟨?_, rfl⟩
        cases h : userGet a.login <;>
          simp [Team.membersLoop, h, hrec.1]

/-- Witness for C9: with a user lookup that always fails, the single member
alice is still returned as the basic entry with role member. -/
theorem c9_members_degrade_witness :
    Team.basicEntry ⟨"alice", 1, "", "", false, "User"⟩ ∈
      Team.membersLoop (fun _ => Except.error "boom")
        (fun _ => Except.ok "maintainer")
        [⟨"alice", 1, "", "", false, "User"⟩] ∧
    (Team.basicEntry ⟨"alice", 1, "", "", false, "User"⟩).role = "member" :=
  (c9_members_degrade (fun _ => Except.error "boom")
    (fun _ => Except.ok "maintainer")
    [⟨"alice", 1, "", "", false, "User"⟩]).2
    ⟨"alice", 1, "", "", false, "User"⟩ (by simp) ⟨"boom", rfl⟩

/-- C10: Ticket.Query never returns a ticket converted from an upstream
issue record that carries pull-request links: the conversion loop equals
filtering to link-free issues then converting, and every returned ticket is
the conversion of some issue from the page whose pull-request link field is
nil. -/
theorem c10_skip_pull_requests (issues : List Ticket.Issue) :
    Ticket.convertIssues issues =
      (issues.filter (fun i => i.pullRequestLinks.isNone)).map
        Ticket.convertIssueToTicket ∧
    (∀ t ∈ Ticket.convertIssues issues, ∃ i, i ∈ issues ∧
       i.pullRequestLinks = none ∧ t = Ticket.convertIssueToTicket i) := by
  have heq : ∀ l : List Ticket.Issue, Ticket.convertIssues l =
      (l.filter (fun i => i.pullRequestLinks.isNone)).map
        Ticket.convertIssueToTicket := by
    intro l
    induction l with
    | nil => rfl
    | cons i rest ih =>
      by_cases h : i.pullRequestLinks.isSome
      · have hn : i.pullRequestLinks.isNone = false := by
          cases hpr : i.pullRequestLinks <;> simp_all
        simp [Ticket.convertIssues, h, hn, ih]
      · have hn : i.pullRequestLinks.isNone = true := by
          simp [Option.not_isSome_iff_eq_none.mp h]
        simp [Ticket.convertIssues, h, hn, ih]
  refine ⟨heq issues, fun t ht => ?_⟩
  rw [heq issues] at ht
  obtain ⟨i, hi, rfl⟩ := List.mem_map.mp ht
  have hfi := List.mem_filter.mp hi
  exact ⟨i, hfi.1, Option.isNone_iff_eq_none.mp hfi.2, rfl⟩

/-- Witness for C10: from a two-issue page whose first record carries
pull-request links, only the conversion of the second appears, and it comes
from a link-free issue. -/
theorem c10_skip_pull_requests_witness :
    ∃ i, i ∈ [(⟨1, "pr", "", "open", "", 0, 0, some (), [], none, [], none⟩ :
        Ticket.Issue),
      ⟨2, "issue", "", "open", "", 0, 0, none, [], none, [], none⟩] ∧
      i.pullRequestLinks = none ∧
      Ticket.convertIssueToTicket
        ⟨2, "issue", "", "open", "", 0, 0, none, [], none, [], none⟩ =
        Ticket.convertIssueToTicket i :=
  (c10_skip_pull_requests
    [⟨1, "pr", "", "open", "", 0, 0, some (), [], none, [], none⟩,
     ⟨2, "issue", "", "open", "", 0, 0, none, [], none, [], none⟩]).2
    (Ticket.convertIssueToTicket
      ⟨2, "issue", "", "open", "", 0, 0, none, [], none, [], none⟩)
    (by simp [Ticket.convertIssues])

/-- Witness for amended C4 at concrete inputs: idempotence of the ticket
normalizer on a mixed-case value, the passthrough disjunct, role
case-insensitivity, and the constant double application. -/
theorem c4_normalizers_amended_witness :
    Ticket.normalizeStatus (Ticket.normalizeStatus "OPEN") =
      Ticket.normalizeStatus "OPEN" ∧
    (Ticket.normalizeStatus "Foo" = Ticket.normalizeStatus "foo" ∨
     (Ticket.normalizeStatus "Foo" = "Foo" ∧
      Ticket.normalizeStatus "foo" = "foo")) ∧
    Team.normalizeRole "MAINTAINER" = Team.normalizeRole "Maintainer" ∧
    Team.normalizeRole (Team.normalizeRole "maintainer") = "member" :=
  ⟨c4_normalizers_amended.1 "OPEN",
   c4_normalizers_amended.2.1 "Foo" "foo" (by decide),
   c4_normalizers_amended.2.2.1 "MAINTAINER" "Maintainer" (by decide),
   c4_normalizers_amended.2.2.2.1 "maintainer"⟩

end OpsOrchGitHub
